import Mathlib

/-!
Verification development for the SNR evolution and emissivity calculator
(PythonVersion/snr_calc.py).  The numeric code is shallowly embedded over ℝ:
closed-form solutions become Lean functions, the scipy root-finders (brentq,
newton) are modelled relationally by their documented postconditions, and
scipy quadrature is modelled by the interval integral.  Exception handling
(try/except around root-finding) is modelled with Except-valued oracles.
-/

noncomputable section

namespace SNR

open Real

/-! ## Module-level constants (snr_calc.py lines 16-29) -/

def PC_TO_KM : ℝ := 3.0857e13
def BOLTZMANN : ℝ := 1.380658e-16
def SOLAR_MASS : ℝ := 1.989e33
def M_H : ℝ := 1.673e-24
def XI_0 : ℝ := 2.026
def YR_TO_SEC : ℝ := 365.25 * 24 * 3600
def BETA : ℝ := 2
def PHI_C : ℝ := 0.5

def CONVERSION_FACTOR : ℝ := PC_TO_KM / YR_TO_SEC

/-! ## ValueSet table (snr_calc.py lines 31-45).
Fields that are None in the Python table are never read by any embedded
formula for the corresponding n (reading them in Python would crash); they
are represented by 0 here. -/

structure ValueSet where
  l_ed : ℝ
  phi_ed : ℝ
  t_st : ℝ
  r_st : ℝ
  t_rchg : ℝ
  r_rchg : ℝ
  v_rchg : ℝ
  a_rchg : ℝ
  phi_eff : ℝ
  f_n : ℝ
  alpha : ℝ

def valueDict : ℕ → ValueSet
  | 0 => ⟨0, 0, 0.495, 0, 0.495, 0, 0, 0, 0, 0, 0⟩
  | 2 => ⟨1.10, 0.343, 0.387, 0.679, 0.387, 0.503, 0.686, -0.115, 0.0947, 1 / 4 / Real.pi, 1 / 3⟩
  | 4 => ⟨1.10, 0.343, 0.232, 0.587, 1.2, 0.775, 0.427, 0.7117, 0.0791, 0.00645, 0.0746⟩
  | 6 => ⟨1.39, 0.39, 1.04, 1.07, 0.513, 0.541, 0.527, 0.112, 0, 0, 0⟩
  | 7 => ⟨1.26, 0.47, 0.732, 0.881, 0.363, 0.469, 0.553, 0.116, 0, 0, 0⟩
  | 8 => ⟨1.21, 0.52, 0.605, 0.788, 0.292, 0.413, 0.530, 0.139, 0, 0, 0⟩
  | 9 => ⟨1.19, 0.55, 0.523, 0.725, 0.249, 0.371, 0.497, 0.162, 0, 0, 0⟩
  | 10 => ⟨1.17, 0.57, 0.481, 0.687, 0.220, 0.340, 0.463, 0.192, 0, 0, 0⟩
  | 12 => ⟨1.15, 0.60, 0.424, 0.636, 0.182, 0.293, 0.403, 0.251, 0, 0, 0⟩
  | 14 => ⟨1.14, 0.62, 0.389, 0.603, 0.157, 0.259, 0.354, 0.277, 0, 0, 0⟩
  | _ => ⟨0, 0, 0, 0, 0, 0, 0, 0, 0, 0, 0⟩

/-! ## Input data and derived state -/

inductive Model
  | cf
  | wl
  | lk
  | tw
deriving DecidableEq

inductive Phase
  | ED
  | ST
  | PDS
  | MCS
  | LK
  | TW
  | WL
  | s2
deriving DecidableEq

/-- Flat input parameter record (self.data after update_output collects the
values it needs; composition moments such as mu_H are stored as already
derived quantities, and k_ctau stands for K_DICT[c_tau], a table loaded from
a data file that is not part of the source tree). -/
structure Data where
  s : ℕ
  n : ℕ
  model : Model
  e_51 : ℝ
  m_ej : ℝ
  n_0 : ℝ
  mu_H : ℝ
  temp_ism : ℝ
  sigma_v : ℝ
  zeta_m : ℝ
  t_lk : ℝ
  t_tw : ℝ
  k_ctau : ℝ
  gamma_0 : ℝ
  eps : ℝ

/-- Derived state (self.calc) as populated by update_output for s = 0.
The ED-phase merger time can be infinite (np.inf from the n in {2,4}
fallback), hence EReal. -/
structure Calc where
  r_ch : ℝ
  t_ch : ℝ
  v_ch : ℝ
  c_0 : ℝ
  c_net : ℝ
  t_st : ℝ
  t_pds : ℝ
  t_mcs : ℝ
  t_c : ℝ
  gamma_1 : ℝ
  mrgED : EReal
  mrgST : ℝ
  mrgPDS : ℝ
  mrgMCS : ℝ
  mrgWL : ℝ

/-! ## Characteristic scales (update_output, snr_calc.py lines 132-143) -/

def vEj (d : Data) : ℝ := (100 * d.e_51 / d.m_ej) ^ (0.5 : ℝ)

def cZero (d : Data) : ℝ :=
  (5 * BOLTZMANN * d.temp_ism / 3 / M_H / d.mu_H) ^ (0.5 : ℝ) / 100000

def cNet (d : Data) : ℝ := (cZero d ^ 2 + d.sigma_v ^ 2) ^ (0.5 : ℝ)

def rCh (d : Data) : ℝ :=
  (d.m_ej * SOLAR_MASS) ^ ((1 : ℝ) / 3) /
    (d.n_0 * d.mu_H * M_H) ^ ((1 : ℝ) / 3) / PC_TO_KM / 10 ^ 5

def tCh (d : Data) : ℝ :=
  (d.m_ej * SOLAR_MASS) ^ ((5 : ℝ) / 6) / (d.e_51 * 10 ^ 51) ^ (0.5 : ℝ) /
    (d.n_0 * d.mu_H * M_H) ^ ((1 : ℝ) / 3) / YR_TO_SEC

def vCh (d : Data) : ℝ := rCh d / tCh d * CONVERSION_FACTOR

/-! ## s=0, n=0 solution (_s0n0_solution, snr_calc.py lines 586-631).
Each function first reduces t by t_ch, exactly as the Python closures do. -/

def s0n0_radius_ED (c : Calc) (t : ℝ) : ℝ :=
  let tr := t / c.t_ch
  2.01 * tr * (1 + 1.72 * tr ^ (1.5 : ℝ)) ^ (-(2 : ℝ) / 3) * c.r_ch

def s0n0_radius_ST (c : Calc) (t : ℝ) : ℝ :=
  let tr := t / c.t_ch
  (1.42 * tr - 0.254) ^ (0.4 : ℝ) * c.r_ch

def s0n0_velocity_ED (c : Calc) (t : ℝ) : ℝ :=
  let tr := t / c.t_ch
  2.01 * (1 + 1.72 * tr ^ (1.5 : ℝ)) ^ (-(5 : ℝ) / 3) * c.v_ch

def s0n0_velocity_ST (c : Calc) (t : ℝ) : ℝ :=
  let tr := t / c.t_ch
  0.569 * (1.42 * tr - 0.254) ^ (-(0.6 : ℝ)) * c.v_ch

/-! ## s=2, n=7 solution (_s2n7_solution, snr_calc.py lines 633-665) -/

def s2n7_radius_b (c : Calc) (t : ℝ) : ℝ :=
  let tr := t / c.t_ch
  1.19 * tr ^ (0.8 : ℝ) * c.r_ch

def s2n7_radius_r (c : Calc) (t : ℝ) : ℝ :=
  let tr := t / c.t_ch
  0.890 * tr ^ (0.8 : ℝ) * c.r_ch

def s2n7_velocity_b (c : Calc) (t : ℝ) : ℝ :=
  let tr := t / c.t_ch
  0.954 * tr ^ (-(0.2 : ℝ)) * c.v_ch

def s2n7_velocity_r (c : Calc) (t : ℝ) : ℝ :=
  let tr := t / c.t_ch
  0.178 * tr ^ (-(0.2 : ℝ)) * c.v_ch

/-! ## Spec-side reference laws for the refinement claims C5 and C6.
These are written from the published laws quoted in the specification, to be
compared with the source-derived functions above. -/

/-- Published ED-phase radius law for n=0, s=0 quoted in the spec:
r(t) = 2.01 t (1 + 1.72 t^1.5)^(-2/3) r_ch with t in units of t_ch. -/
def publishedRadiusN0 (r_ch t_ch t : ℝ) : ℝ :=
  2.01 * (t / t_ch) * (1 + 1.72 * (t / t_ch) ^ (1.5 : ℝ)) ^ (-(2 : ℝ) / 3) * r_ch

/-- Published forward-shock radius law for n=7, s=2 quoted in the spec:
r(t) = 1.19 t^0.8 r_ch with t in units of t_ch. -/
def publishedRadiusS2N7 (r_ch t_ch t : ℝ) : ℝ :=
  1.19 * (t / t_ch) ^ (0.8 : ℝ) * r_ch

/-- Published forward-shock velocity law for n=7, s=2 quoted in the spec:
v(t) = 0.954 t^-0.2 v_ch with t in units of t_ch. -/
def publishedVelocityS2N7 (v_ch t_ch t : ℝ) : ℝ :=
  0.954 * (t / t_ch) ^ (-(0.2 : ℝ)) * v_ch

/-! ## General ED solution for n in {2,4} (_ed_solution, snr_calc.py
lines 705-747): time of radius for the blast wave and reverse shock, and
velocity of radius. -/

def edTime_b (cn : ValueSet) (c : Calc) (n : ℝ) (r : ℝ) : ℝ :=
  let rr := r / c.r_ch
  (cn.alpha / 2) ^ (0.5 : ℝ) * rr / cn.l_ed *
    (1 - (3 - n) / 3 * (cn.phi_eff / cn.l_ed / cn.f_n) ^ (0.5 : ℝ) * rr ^ (1.5 : ℝ)) ^
      (-2 / (3 - n)) * c.t_ch

def edTime_r (cn : ValueSet) (c : Calc) (n : ℝ) (r : ℝ) : ℝ :=
  let rr := r / c.r_ch
  (cn.alpha / 2) ^ (0.5 : ℝ) * rr *
    (1 - (3 - n) / 3 * (cn.phi_ed / cn.l_ed / cn.f_n) ^ (0.5 : ℝ) *
      (rr * cn.l_ed) ^ (1.5 : ℝ)) ^ (-2 / (3 - n)) * c.t_ch

def edVelocity_b (cn : ValueSet) (c : Calc) (n : ℝ) (r : ℝ) : ℝ :=
  let rr := r / c.r_ch
  (2 / cn.alpha) ^ (0.5 : ℝ) * cn.l_ed *
    ((1 - (3 - n) / 3 * (cn.phi_eff / cn.l_ed / cn.f_n) ^ (0.5 : ℝ) * rr ^ (1.5 : ℝ)) ^
      ((5 - n) / (3 - n))) /
    (1 + n / 3 * (cn.phi_eff / cn.l_ed / cn.f_n) ^ (0.5 : ℝ) * rr ^ (1.5 : ℝ)) * c.v_ch

def edVelocity_r (cn : ValueSet) (c : Calc) (n : ℝ) (r : ℝ) : ℝ :=
  let rr := r / c.r_ch
  (2 * cn.phi_ed / cn.alpha / cn.f_n) ^ (0.5 : ℝ) * cn.l_ed * rr ^ (1.5 : ℝ) *
    ((1 - (3 - n) / 3 * (cn.phi_ed / cn.f_n) ^ (0.5 : ℝ) * cn.l_ed * rr ^ (1.5 : ℝ)) ^
      (2 / (3 - n))) /
    (1 + n / 3 * (cn.phi_ed / cn.f_n) ^ (0.5 : ℝ) * cn.l_ed * rr ^ (1.5 : ℝ)) * c.v_ch

/-! ## s=2, n<3 solution (_s2nlt3_solution, snr_calc.py lines 667-703) -/

def s2Time_b (c : Calc) (n : ℝ) (r : ℝ) : ℝ :=
  let rr := r / c.r_ch
  0.594 * ((3 - n) / (5 - n)) ^ (0.5 : ℝ) * rr *
    (1 - 1.5 * (3 - n) ^ (0.5 : ℝ) * rr ^ (0.5 : ℝ)) ^ (-2 / (3 - n)) * c.t_ch

def s2Time_r (c : Calc) (n : ℝ) (r : ℝ) : ℝ := s2Time_b c n (r * 1.19)

/-! ## Root-finder models.
scipy.optimize.brentq is modelled by its documented contract: on a bracket
[a, b] where the residual changes sign it returns a root inside the bracket;
on a bracket with no sign change (f(a) * f(b) > 0) it raises ValueError
("f(a) and f(b) must have different signs") instead of returning a value.
scipy.optimize.newton, when it converges, returns a root of the residual. -/

inductive BrentqOutcome
  | ok (r : ℝ)
  | noSignChangeError

/-- Postcondition of a successful brentq call: a root of f inside [a, b]. -/
def brentqSpec (f : ℝ → ℝ) (a b r : ℝ) : Prop :=
  r ∈ Set.Icc a b ∧ f r = 0

/-- Full observable behaviour of brentq. -/
def brentqModel (f : ℝ → ℝ) (a b : ℝ) : BrentqOutcome → Prop
  | .ok r => f a * f b ≤ 0 ∧ brentqSpec f a b r
  | .noSignChangeError => 0 < f a * f b

/-- Postcondition of a converged scipy newton call. -/
def newtonRoot (f : ℝ → ℝ) (t : ℝ) : Prop := f t = 0

/-! ## The numerically inverted radius-of-time families
(_init_functions, snr_calc.py lines 1228-1235 and 1253-1260).
For each family the time-of-radius closed form is inverted by brentq over
[0, r_upper].  Note that in the source the s=2 brackets read
self.data["n"] while the time function uses the loop variable n; both are
kept as separate arguments here to preserve that behaviour. -/

inductive InvPhase
  | edB
  | edEarly
  | s2B
  | s2R

/-- Time-of-radius function for each inverted family, exactly the function
handed to brentq in _init_functions. -/
def invTimeFn (p : InvPhase) (cn : ValueSet) (c : Calc) (n : ℝ) (r : ℝ) : ℝ :=
  match p with
  | .edB => edTime_b cn c n r
  | .edEarly => edTime_r cn c n r
  | .s2B => s2Time_b c n r
  | .s2R => s2Time_r c n r

/-- Upper end of the brentq bracket for each inverted family. -/
def invUpper (p : InvPhase) (cn : ValueSet) (d : Data) (c : Calc) : ℝ :=
  match p with
  | .edB => cn.r_st * c.r_ch
  | .edEarly => cn.r_rchg * c.r_ch
  | .s2B => 1 / 1.5 ^ 2 / (3 - (d.n : ℝ)) * c.r_ch - 1
  | .s2R => 1 / 1.5 ^ 2 / (3 - (d.n : ℝ)) / 1.19 * c.r_ch - 1

/-- The radius-of-time value produced by a successful brentq inversion:
radius_functions[n, phase](t) = r. -/
def radiusOfTimeRel (p : InvPhase) (cn : ValueSet) (d : Data) (c : Calc)
    (n : ℝ) (t r : ℝ) : Prop :=
  brentqSpec (fun rr => invTimeFn p cn c n rr - t) 0 (invUpper p cn d c) r

/-! ## Fitted-phase velocity laws (PDS, MCS, WL).
The PDS linear bridge anchors on the preceding-phase velocity at t_pds and
the WL linear bridge anchors on the ED velocity at t_st; both anchors are
values the source computes by dispatching into its function dictionaries,
and are passed here as explicit arguments. -/

def pdsRegVelocity (d : Data) (tr : ℝ) : ℝ :=
  let v_pds := 413 * d.n_0 ^ ((1 : ℝ) / 7) * d.zeta_m ^ ((3 : ℝ) / 14) * d.e_51 ^ ((1 : ℝ) / 14)
  v_pds * (4 * tr / 3 - 1 / 3) ^ (-(0.7 : ℝ))

def pdsVelocity (d : Data) (c : Calc) (prevV : ℝ) (t : ℝ) : ℝ :=
  let tr := t / c.t_pds
  if tr < 1.1 then (pdsRegVelocity d 1.1 - prevV) / 0.1 * (tr - 1) + prevV
  else pdsRegVelocity d tr

def wlRegVelocity (d : Data) (t : ℝ) : ℝ :=
  let k_wl := d.k_ctau
  let rho_0 := d.n_0 * M_H * d.mu_H
  let gamma : ℝ := 5 / 3
  let r_wl := (25 * (gamma + 1) * k_wl * d.e_51 * 10 ^ 51 / 16 / Real.pi / rho_0) ^ (0.2 : ℝ) *
    (t * YR_TO_SEC) ^ (0.4 : ℝ)
  ((gamma + 1) * k_wl * d.e_51 * 10 ^ 51 / 4 / Real.pi / rho_0 / r_wl ^ 3) ^ (0.5 : ℝ) / 10 ^ 5

def wlVelocity (d : Data) (c : Calc) (vEnd : ℝ) (t : ℝ) : ℝ :=
  if t < c.t_st * 1.1 then
    (wlRegVelocity d (1.1 * c.t_st) - vEnd) / 0.1 / c.t_st * (t - c.t_st) + vEnd
  else wlRegVelocity d t

def mcsRegVelocity (d : Data) (c : Calc) (tr : ℝ) : ℝ :=
  let r_pds := 14 * d.e_51 ^ ((2 : ℝ) / 7) / d.n_0 ^ ((3 : ℝ) / 7) / d.zeta_m ^ ((1 : ℝ) / 7)
  let r_mcs := (4.66 * tr * (1 - 0.939 * tr ^ (-(0.17 : ℝ)) + 0.153 / tr)) ^ (0.25 : ℝ) * r_pds
  let t_mcs := c.t_mcs / c.t_pds
  CONVERSION_FACTOR * r_pds / 4 * (4.66 / c.t_pds * (1 - 0.779 * t_mcs ^ (-(0.17 : ℝ)))) *
    (4.66 * (tr - t_mcs) * (1 - 0.779 * t_mcs ^ (-(0.17 : ℝ))) + (r_mcs / r_pds) ^ 4) ^
      (-(0.75 : ℝ))

def mcsVelocity (d : Data) (c : Calc) (prevV vEndWL rWLmcs : ℝ) (t : ℝ) : ℝ :=
  if d.model = .wl then
    let v_mcs := wlVelocity d c vEndWL c.t_mcs
    v_mcs * (1 + 4 * v_mcs / rWLmcs * (t - c.t_mcs) / CONVERSION_FACTOR) ^ (-(3 : ℝ) / 4)
  else
    let tr := t / c.t_pds
    let t_ratio := c.t_mcs / c.t_pds
    if tr < t_ratio * 1.1 then
      (mcsRegVelocity d c (t_ratio * 1.1) - pdsVelocity d c prevV c.t_mcs) / 0.1 / t_ratio *
        (tr - t_ratio) + pdsVelocity d c prevV c.t_mcs
    else mcsRegVelocity d c tr

/-! ## Merger times (merger_time, snr_calc.py lines 1063-1122) -/

def mergerEDClosedCalc (cn : ValueSet) (n : ℝ) (c : Calc) : ℝ :=
  (c.c_net * BETA / c.v_ch * n / (n - 3) /
    (27 * cn.l_ed ^ (n - 2) / 4 / Real.pi / n / (n - 3) / cn.phi_ed *
      (10 * (n - 5) / 3 / (n - 3)) ^ ((n - 3) / 2)) ^ (1 / n)) ^ (-n / 3) * c.t_ch

def mergerSTn0Calc (c : Calc) : ℝ :=
  c.t_ch / 1.42 * ((0.569 * c.v_ch / BETA / c.c_net) ^ ((5 : ℝ) / 3) + 0.254)

def mergerSTCalc (cn : ValueSet) (c : Calc) : ℝ :=
  c.t_ch * (((2 * XI_0 ^ (0.5 : ℝ) * c.v_ch / 5 / BETA / c.c_net) ^ ((5 : ℝ) / 3) -
    cn.r_st ^ (2.5 : ℝ)) / XI_0 ^ (0.5 : ℝ) + cn.t_st)

def alphaOne (d : Data) (c : Calc) : ℝ :=
  (2 - d.gamma_0 + ((2 - d.gamma_0) ^ 2 + 4 * (c.gamma_1 - 1)) ^ (0.5 : ℝ)) / 4

def mergerLKCalc (d : Data) (c : Calc) (r0 v0 : ℝ) : ℝ :=
  let a1 := alphaOne d c
  ((v0 / BETA / c.c_net) ^ (-(4 - 3 * a1) / 3 / (a1 - 1)) - 1) * (r0 * PC_TO_KM) /
    (v0 * YR_TO_SEC) / (4 - 3 * a1) + d.t_lk

def mergerWLClosed (d : Data) (c : Calc) : ℝ :=
  (d.k_ctau * d.e_51 * 10 ^ 51 / 4 / Real.pi / d.mu_H / M_H / d.n_0) ^ ((1 : ℝ) / 3) *
    (4 / 5 * ((4 : ℝ) / 45) ^ (0.2 : ℝ)) ^ ((5 : ℝ) / 6) / (c.c_net * 10 ^ 5 * 2) ^ ((5 : ℝ) / 3) /
    YR_TO_SEC

/-- Outcomes of the root-finding calls inside merger_time.  The n in {2,4}
ED computation can raise ValueError (from brentq inside the inverted radius
function, caught at lines 1077-1081) and the MCS newton call can raise
RuntimeError on non-convergence (caught at lines 1094-1098); both are
modelled as Except values.  The remaining oracles are the values the
succeeding newton calls and dictionary dispatches return. -/
structure MergerOracles where
  edN0 : ℝ
  ed24 : Except Unit ℝ
  pds : ℝ
  mcs : Except Unit ℝ
  wl : ℝ
  lk_r0 : ℝ
  lk_v0 : ℝ

structure MergerTimes where
  ED : EReal
  ST : ℝ
  PDS : ℝ
  MCS : ℝ
  LK : Option ℝ
  TW : ℝ
  WL : Option ℝ

/-- merger_time(n): assembles the merger-time dictionary.  The string "N/A"
stored for LK and WL outside their models is rendered as none. -/
def mergerTime (d : Data) (c : Calc) (o : MergerOracles) : MergerTimes :=
  let cn := valueDict d.n
  let ed : EReal :=
    if d.n = 0 then (o.edN0 : EReal)
    else if d.n = 2 ∨ d.n = 4 then
      match o.ed24 with
      | .ok t => (t : EReal)
      | .error _ => ⊤
    else (mergerEDClosedCalc cn (d.n : ℝ) c : EReal)
  let st : ℝ := if d.n = 0 then mergerSTn0Calc c else mergerSTCalc cn c
  let mcs : ℝ :=
    match o.mcs with
    | .ok t => t
    | .error _ => 0
  let lk : Option ℝ :=
    if d.model = .lk then some (mergerLKCalc d c o.lk_r0 o.lk_v0) else none
  let wl : Option ℝ :=
    if d.model = .wl then
      some (if mergerWLClosed d c < c.t_st * 1.1 then o.wl else mergerWLClosed d c)
    else none
  ⟨ed, st, o.pds, mcs, lk, d.t_tw, wl⟩

/-! ## Transition-time formulas and the Calc state update_output builds
before calling merger_time (standard model, s=0; lines 130-160). -/

def tPds (d : Data) : ℝ :=
  13300 * d.e_51 ^ ((3 : ℝ) / 14) * d.n_0 ^ (-(4 : ℝ) / 7) * d.zeta_m ^ (-(5 : ℝ) / 14)

def tMcsCf (d : Data) : ℝ :=
  tPds d * min (61 * vEj d ^ 3 / d.zeta_m ^ ((9 : ℝ) / 14) / d.n_0 ^ ((3 : ℝ) / 7) /
    d.e_51 ^ ((3 : ℝ) / 14)) (476 / (d.zeta_m * PHI_C) ^ ((9 : ℝ) / 14))

def tC (d : Data) : ℝ :=
  (((2 : ℝ) / 5) ^ 5 * d.e_51 * 10 ^ 51 * XI_0 / (cZero d * 100000) ^ 5 /
    (d.n_0 * d.mu_H * M_H)) ^ ((1 : ℝ) / 3) / YR_TO_SEC

/-- The derived scales exactly as update_output assigns them for s=0 with
the standard (cf) t_mcs branch; the merger-time and gamma_1 fields, not yet
assigned at that point, are 0. -/
def scaleCalc (d : Data) : Calc :=
  { r_ch := rCh d
    t_ch := tCh d
    v_ch := vCh d
    c_0 := cZero d
    c_net := cNet d
    t_st := (valueDict d.n).t_st * tCh d
    t_pds := tPds d
    t_mcs := tMcsCf d
    t_c := tC d
    gamma_1 := 0
    mrgED := 0
    mrgST := 0
    mrgPDS := 0
    mrgMCS := 0
    mrgWL := 0 }

/-! ## Phase selection (get_phases, snr_calc.py lines 1124-1195) and the
cloudy-ISM fallback of update_output (lines 171-177). -/

/-- The phase tuple chosen in the final (standard-model) branch of
get_phases before the ST-removal check. -/
def cfBase (c : Calc) : List Phase :=
  if c.t_pds > c.mrgST then [.ED, .ST]
  else if c.t_mcs > c.mrgPDS then [.ED, .ST, .PDS]
  else [.ED, .ST, .PDS, .MCS]

/-- The ST-removal step of get_phases (line 1183): drop ST when the ED
phase merges before t_st. -/
def stFilter (c : Calc) (base : List Phase) : List Phase :=
  if Phase.ST ∈ base ∧ (c.t_st : EReal) > c.mrgED then
    base.filter (fun p => decide (p ≠ Phase.ST))
  else base

def getPhases (d : Data) (c : Calc) : List Phase :=
  if d.s = 2 then [.s2]
  else if d.model = .lk then
    if d.t_lk = ((round c.t_st : ℤ) : ℝ) then [.ED, .LK]
    else if d.t_lk ≤ min c.t_pds c.mrgST then [.ED, .ST, .LK]
    else if d.t_lk < min c.t_mcs c.mrgPDS then [.ED, .ST, .PDS, .LK]
    else [.ED, .ST, .PDS, .MCS, .LK]
  else if d.model = .tw then
    if c.t_c * 0.1 < c.t_st then [.ED, .TW] else [.ED, .ST, .TW]
  else if d.model = .wl then
    if c.t_mcs < c.mrgWL then [.ED, .WL, .MCS] else [.ED, .WL]
  else stFilter c (cfBase c)

/-- The model-fallback slice of update_output: if the ED merger time
precedes t_st under the cloudy-ISM model, the model is switched back to cf
and update_output re-runs from scratch (modelled by the recompute oracle
giving the Calc state the re-run produces); otherwise the phase list for
the current state is returned. -/
def updateOutputPhases (d : Data) (c : Calc) (recompute : Data → Calc) : List Phase :=
  if c.mrgED < (c.t_st : EReal) ∧ d.model = .wl then
    getPhases { d with model := .cf } (recompute { d with model := .cf })
  else getPhases d c

/-! ## Merger root-finding residuals (claim C4).
Each newton call in merger_time and update_output uses the residual
velocity(t) - c_net * BETA for the velocity law of the phase in question. -/

inductive RootPhase
  | ed0
  | ed24
  | pds
  | mcs
  | wlp

/-- Anchor values and the brentq-backed inverted ED radius function that the
velocity laws close over in the source. -/
structure VParams where
  d : Data
  c : Calc
  prevV : ℝ
  vEndWL : ℝ
  rWLmcs : ℝ
  rED : ℝ → ℝ

def phaseVelocityFn (p : RootPhase) (P : VParams) (t : ℝ) : ℝ :=
  match p with
  | .ed0 => s0n0_velocity_ED P.c t
  | .ed24 => edVelocity_b (valueDict P.d.n) P.c (P.d.n : ℝ) (P.rED t)
  | .pds => pdsVelocity P.d P.c P.prevV t
  | .mcs => mcsVelocity P.d P.c P.prevV P.vEndWL P.rWLmcs t
  | .wlp => wlVelocity P.d P.c P.vEndWL t

def mergerResidual (p : RootPhase) (P : VParams) (t : ℝ) : ℝ :=
  phaseVelocityFn p P t - P.c.c_net * BETA

/-! ## Emissivity: emission measure for the self-similar "chev" model
(SNREmissivity.emission_measure, snr_calc.py lines 1556-1585).
scipy.integrate.quad is modelled by the interval integral; the points
argument only assists the quadrature and does not change the value. -/

def quadModel (f : ℝ → ℝ) (a b : ℝ) : ℝ := ∫ x in a..b, f x

structure EmData where
  n_0 : ℝ
  radius : ℝ
  mu_H : ℝ
  mu_e : ℝ
  mu_H_ej : ℝ
  mu_e_ej : ℝ
  T_s : ℝ
  r_min : ℝ
  r_c : ℝ
  density : ℝ → ℝ
  temperature : ℝ → ℝ

structure EmResult where
  em : ℝ
  em_f : ℝ
  em_r : ℝ
  tem : ℝ
  tem_f : ℝ
  tem_r : ℝ

def emissionMeasureChev (e : EmData) : EmResult :=
  let integrand := fun x => e.density x ^ 2 * 4 * Real.pi * x ^ 2
  let temp_integrand := fun x => integrand x * e.temperature x
  let em0 := quadModel integrand e.r_min e.r_c
  let em1 := quadModel integrand e.r_c 1
  let em_f := 16 * e.n_0 ^ 2 * e.radius ^ 3 * e.mu_H * em1 / e.mu_e
  let em_r := 16 * e.n_0 ^ 2 * e.radius ^ 3 * e.mu_H ^ 2 * em0 / e.mu_H_ej / e.mu_e_ej
  let emt0 := quadModel temp_integrand e.r_min e.r_c * e.T_s
  let emt1 := quadModel temp_integrand e.r_c 1 * e.T_s
  ⟨em_f + em_r, em_f, em_r, (emt0 + emt1) / (em0 + em1), emt1 / em1, emt0 / em0⟩

/-! ## Sedov profile functions (snr_calc.py lines 1429-1492).
numpy arrays are modelled as lists; boolean-mask selection x[np.where(p(x))]
is List.filter, np.full is List.replicate, np.concatenate is append, and
elementwise division of equal-length arrays is List.zipWith. -/

def sedovScalarTemp (x : ℝ) : ℝ :=
  if x < 0.4 then (0.4 : ℝ) ^ (-(4.32 : ℝ)) else x ^ (-(4.32 : ℝ))

def sedovVectorTemp (xs : List ℝ) : List ℝ :=
  List.replicate (xs.filter (fun x => decide (x < 0.4))).length ((0.4 : ℝ) ^ (-(4.32 : ℝ))) ++
    (xs.filter (fun x => decide ((0.4 : ℝ) ≤ x))).map (fun x => x ^ (-(4.32 : ℝ)))

def sedovScalarDensity (x : ℝ) : ℝ :=
  if x < 0.5 then 0.31 / sedovScalarTemp x
  else (0.31 + 2.774 * (x - 0.5) ^ 3 + 94.2548 * (x - 0.5) ^ (8.1748 : ℝ)) / sedovScalarTemp x

def sedovVectorDensity (xs : List ℝ) : List ℝ :=
  List.zipWith (fun a b => a / b)
    (List.replicate (xs.filter (fun x => decide (x < 0.5))).length (0.31 : ℝ) ++
      (xs.filter (fun x => decide ((0.5 : ℝ) ≤ x))).map
        (fun x => 0.31 + 2.774 * (x - 0.5) ^ 3 + 94.2548 * (x - 0.5) ^ (8.1748 : ℝ)))
    (sedovVectorTemp xs)

/-! ## Concrete states used to instantiate the theorems below -/

def dW4 : Data :=
  { s := 0, n := 4, model := .cf, e_51 := 1, m_ej := 1, n_0 := 1, mu_H := 1,
    temp_ism := 0, sigma_v := 2.01, zeta_m := 1, t_lk := 0, t_tw := 0, k_ctau := 1,
    gamma_0 := 5 / 3, eps := 1 }

def dW0 : Data := { dW4 with n := 0 }

def cUnit : Calc :=
  { r_ch := 1, t_ch := 1, v_ch := 2, c_0 := 0, c_net := 2.01, t_st := 1, t_pds := 1,
    t_mcs := 2, t_c := 1, gamma_1 := 1, mrgED := 0, mrgST := 0, mrgPDS := 0,
    mrgMCS := 0, mrgWL := 0 }

def oErr : MergerOracles :=
  { edN0 := 0, ed24 := .error (), pds := 0, mcs := .error (), wl := 0, lk_r0 := 1, lk_v0 := 1 }

def pUnit : VParams :=
  { d := dW0, c := cUnit, prevV := 0, vEndWL := 0, rWLmcs := 1, rED := fun t => t }

def dWL : Data := { dW4 with n := 7, model := .wl }

def cWL : Calc := { cUnit with t_st := 1, t_mcs := 5, mrgED := ((2 : ℝ) : EReal), mrgWL := 10 }

def cWLb : Calc := { cUnit with t_st := 1, mrgED := ((0 : ℝ) : EReal) }

def eW : EmData :=
  { n_0 := 1, radius := 1, mu_H := 1, mu_e := 1, mu_H_ej := 1, mu_e_ej := 1, T_s := 1,
    r_min := 0, r_c := 0.5, density := fun x => x, temperature := fun x => x }

/-- Inputs chosen so that the characteristic scales take simple exact
values: m_ej SOLAR_MASS = 1, n_0 mu_H M_H = 1, e_51 10^51 = 4. -/
def d7a : Data :=
  { s := 0, n := 0, model := .cf, e_51 := 4e-51, m_ej := 1 / SOLAR_MASS, n_0 := 1 / M_H,
    mu_H := 1, temp_ism := 1, sigma_v := 1, zeta_m := 1, t_lk := 0, t_tw := 0, k_ctau := 1,
    gamma_0 := 5 / 3, eps := 1 }

/-- Same inputs with a larger explosion energy: e_51 10^51 = 16. -/
def d7b : Data := { d7a with e_51 := 1.6e-50 }

/-! ## Theorems -/

/-- Claim C5: for n=0, s=0 the ED-phase forward-shock radius function equals
the published law r(t) = 2.01 t (1 + 1.72 t^1.5)^(-2/3) r_ch (t in units of
t_ch) exactly, for every time, hence in particular to 3 significant figures
throughout the ED phase. -/
theorem c5_published_law (c : Calc) (t : ℝ) :
    s0n0_radius_ED c t = publishedRadiusN0 c.r_ch c.t_ch t := rfl

/-- Claim C6: for n=7, s=2 the forward-shock radius and velocity functions
equal the closed forms r(t) = 1.19 t^0.8 r_ch and v(t) = 0.954 t^-0.2 v_ch
(t in units of t_ch) exactly, for every time, in particular for every
positive time; no root-finding or fitting is involved. -/
theorem c6_closed_forms (c : Calc) (t : ℝ) :
    s2n7_radius_b c t = publishedRadiusS2N7 c.r_ch c.t_ch t ∧
    s2n7_velocity_b c t = publishedVelocityS2N7 c.v_ch c.t_ch t := ⟨rfl, rfl⟩

/-- Claim C3: for every numerically inverted phase (ED and early for n in
{2,4} at s=0, and the s=2, n<3 phases) and every time t, the radius r that
the bracketed root-find returns satisfies time_of_radius(r) = t, i.e.
time_functions[n, phase](radius_functions[n, phase](t)) = t (exactly, in
the idealised solver model; within tolerance in the floating-point code). -/
theorem c3_roundtrip (p : InvPhase) (cn : ValueSet) (d : Data) (c : Calc) (n t r : ℝ)
    (h : radiusOfTimeRel p cn d c n t r) :
    invTimeFn p cn c n r = t :=
  sub_eq_zero.mp h.2

theorem c3_roundtrip_witness :
    radiusOfTimeRel .edB (valueDict 4) dW4 cUnit 4 0 0 ∧
      invTimeFn .edB (valueDict 4) cUnit 4 0 = 0 := by
  have h : radiusOfTimeRel .edB (valueDict 4) dW4 cUnit 4 0 0 := by
    constructor
    · rw [Set.mem_Icc]
      norm_num [invUpper, valueDict, cUnit]
    · norm_num [invTimeFn, edTime_b, cUnit]
  exact ⟨h, c3_roundtrip .edB (valueDict 4) dW4 cUnit 4 0 0 h⟩

/-- Claim C9: for every numerically inverted radius-of-time family, if the
time-of-radius residual has the same strict sign at both ends of the
configured bracket [0, r_upper] (no sign change), the brentq call surfaces
the no-solution-in-bracket error (scipy ValueError) and cannot return any
value, in particular not a bracket-boundary value. -/
theorem c9_bracket_error (p : InvPhase) (cn : ValueSet) (d : Data) (c : Calc) (n t : ℝ)
    (out : BrentqOutcome)
    (hmodel : brentqModel (fun rr => invTimeFn p cn c n rr - t) 0 (invUpper p cn d c) out)
    (hsign : 0 < (invTimeFn p cn c n 0 - t) *
      (invTimeFn p cn c n (invUpper p cn d c) - t)) :
    out = .noSignChangeError := by
  cases out with
  | ok r => exact absurd hsign (not_lt.mpr hmodel.1)
  | noSignChangeError => rfl

theorem c9_bracket_error_witness :
    0 < (invTimeFn .edB (valueDict 4) cUnit 4 0 - (-1)) *
        (invTimeFn .edB (valueDict 4) cUnit 4 (invUpper .edB (valueDict 4) dW4 cUnit) - (-1)) ∧
    BrentqOutcome.noSignChangeError = BrentqOutcome.noSignChangeError := by
  have h0 : invTimeFn .edB (valueDict 4) cUnit 4 0 - (-1) = 1 := by
    norm_num [invTimeFn, edTime_b, cUnit]
  have hub : 0 ≤ invTimeFn .edB (valueDict 4) cUnit 4 (invUpper .edB (valueDict 4) dW4 cUnit) := by
    show 0 ≤ edTime_b (valueDict 4) cUnit 4 ((valueDict 4).r_st * cUnit.r_ch)
    unfold edTime_b
    have h1 : (0 : ℝ) ≤ ((valueDict 4).alpha / 2) ^ (0.5 : ℝ) :=
      Real.rpow_nonneg (by norm_num [valueDict]) _
    have h2 : (0 : ℝ) ≤ ((valueDict 4).phi_eff / (valueDict 4).l_ed / (valueDict 4).f_n) ^
        (0.5 : ℝ) := Real.rpow_nonneg (by norm_num [valueDict]) _
    have h3 : (0 : ℝ) ≤ ((valueDict 4).r_st * cUnit.r_ch / cUnit.r_ch) ^ (1.5 : ℝ) :=
      Real.rpow_nonneg (by norm_num [valueDict, cUnit]) _
    have h4 : (0 : ℝ) ≤ (1 - (3 - (4 : ℝ)) / 3 * ((valueDict 4).phi_eff / (valueDict 4).l_ed /
        (valueDict 4).f_n) ^ (0.5 : ℝ) * ((valueDict 4).r_st * cUnit.r_ch / cUnit.r_ch) ^
        (1.5 : ℝ)) ^ (-2 / (3 - (4 : ℝ))) := by
      refine Real.rpow_nonneg ?_ _
      nlinarith [mul_nonneg h2 h3]
    have h5 : (0 : ℝ) ≤ ((valueDict 4).alpha / 2) ^ (0.5 : ℝ) *
        ((valueDict 4).r_st * cUnit.r_ch / cUnit.r_ch) / (valueDict 4).l_ed := by
      refine div_nonneg (mul_nonneg h1 (by norm_num [valueDict, cUnit])) ?_
      norm_num [valueDict]
    calc (0 : ℝ) ≤ (((valueDict 4).alpha / 2) ^ (0.5 : ℝ) *
          ((valueDict 4).r_st * cUnit.r_ch / cUnit.r_ch) / (valueDict 4).l_ed *
          (1 - (3 - (4 : ℝ)) / 3 * ((valueDict 4).phi_eff / (valueDict 4).l_ed /
            (valueDict 4).f_n) ^ (0.5 : ℝ) * ((valueDict 4).r_st * cUnit.r_ch / cUnit.r_ch) ^
            (1.5 : ℝ)) ^ (-2 / (3 - (4 : ℝ)))) * cUnit.t_ch := by
          have := mul_nonneg h5 h4
          have hts : (0 : ℝ) ≤ cUnit.t_ch := by norm_num [cUnit]
          exact mul_nonneg this hts
      _ = _ := by norm_num
  have hsign : 0 < (invTimeFn .edB (valueDict 4) cUnit 4 0 - (-1)) *
      (invTimeFn .edB (valueDict 4) cUnit 4 (invUpper .edB (valueDict 4) dW4 cUnit) - (-1)) := by
    rw [h0, one_mul]
    linarith
  exact ⟨hsign, c9_bracket_error .edB (valueDict 4) dW4 cUnit 4 (-1) .noSignChangeError
    hsign hsign⟩

/-- Claim C4: for every phase whose merger time is obtained by root-finding
on the phase velocity law (ED for n=0 and n in {2,4}, PDS, MCS, and the WL
special case), a converged root t of the residual satisfies
velocity(t) = BETA * c_net with BETA = 2 and c_net the quadrature sum
sqrt(c_0^2 + sigma_v^2) of the thermal sound speed and the turbulent
velocity. -/
theorem c4_merger_velocity (p : RootPhase) (P : VParams) (t : ℝ)
    (hc : P.c.c_net = cNet P.d)
    (hroot : newtonRoot (mergerResidual p P) t) :
    phaseVelocityFn p P t = BETA * Real.sqrt (cZero P.d ^ 2 + P.d.sigma_v ^ 2) := by
  have h : phaseVelocityFn p P t = P.c.c_net * BETA := sub_eq_zero.mp hroot
  rw [h, hc, mul_comm]
  unfold cNet
  rw [Real.sqrt_eq_rpow]
  norm_num

theorem c4_merger_velocity_witness :
    pUnit.c.c_net = cNet pUnit.d ∧ newtonRoot (mergerResidual .ed0 pUnit) 0 ∧
      phaseVelocityFn .ed0 pUnit 0 =
        BETA * Real.sqrt (cZero pUnit.d ^ 2 + pUnit.d.sigma_v ^ 2) := by
  have hz : cZero pUnit.d = 0 := by
    norm_num [cZero, pUnit, dW0, dW4, Real.zero_rpow]
  have hc : pUnit.c.c_net = cNet pUnit.d := by
    rw [cNet, hz]
    show (2.01 : ℝ) = (0 ^ 2 + pUnit.d.sigma_v ^ 2) ^ (0.5 : ℝ)
    have hs : pUnit.d.sigma_v = 2.01 := rfl
    rw [hs]
    rw [show ((0 : ℝ) ^ 2 + (2.01 : ℝ) ^ 2) = (2.01 : ℝ) ^ (2 : ℕ) by norm_num]
    rw [← Real.rpow_natCast (2.01 : ℝ) 2, ← Real.rpow_mul (by norm_num)]
    norm_num
  have hroot : newtonRoot (mergerResidual .ed0 pUnit) 0 := by
    show mergerResidual .ed0 pUnit 0 = 0
    unfold mergerResidual phaseVelocityFn s0n0_velocity_ED
    norm_num [pUnit, cUnit, BETA, Real.zero_rpow, Real.one_rpow]
  exact ⟨hc, hroot, c4_merger_velocity .ed0 pUnit 0 hc hroot⟩

/-- Claim C2: when the root-find inside merger_time fails, the MCS entry is
reported as 0 (phase already unbound, RuntimeError caught) and the
n-in-{2,4} ED entry as infinity (ValueError caught); merger_time still
returns a full merger-time record rather than raising. -/
theorem c2_convergence_fallback (d : Data) (c : Calc) (o : MergerOracles)
    (hn : d.n = 2 ∨ d.n = 4) (hed : o.ed24 = .error ()) (hmcs : o.mcs = .error ()) :
    (mergerTime d c o).ED = ⊤ ∧ (mergerTime d c o).MCS = 0 := by
  unfold mergerTime
  rcases hn with h | h <;> simp [h, hed, hmcs]

theorem c2_convergence_fallback_witness :
    (mergerTime dW4 cUnit oErr).ED = ⊤ ∧ (mergerTime dW4 cUnit oErr).MCS = 0 :=
  c2_convergence_fallback dW4 cUnit oErr (Or.inr rfl) rfl rfl

/-- Claim C8: for the self-similar "chev" emissivity model the emission
measure and its forward- and reverse-shock parts are non-negative, and the
reported combined emission measure is exactly the sum of the separately
reported forward and reverse components. -/
theorem c8_emission_measure (e : EmData)
    (hrad : 0 ≤ e.radius) (hmuH : 0 ≤ e.mu_H) (hmue : 0 ≤ e.mu_e)
    (hmuHej : 0 ≤ e.mu_H_ej) (hmueej : 0 ≤ e.mu_e_ej)
    (h1 : e.r_min ≤ e.r_c) (h2 : e.r_c ≤ 1) :
    0 ≤ (emissionMeasureChev e).em ∧ 0 ≤ (emissionMeasureChev e).em_f ∧
      0 ≤ (emissionMeasureChev e).em_r ∧
      (emissionMeasureChev e).em = (emissionMeasureChev e).em_f + (emissionMeasureChev e).em_r := by
  have hq : ∀ a b : ℝ, a ≤ b →
      0 ≤ quadModel (fun x => e.density x ^ 2 * 4 * Real.pi * x ^ 2) a b := fun a b hab =>
    intervalIntegral.integral_nonneg hab (fun u _ => by positivity)
  have hf : 0 ≤ (emissionMeasureChev e).em_f := by
    show 0 ≤ 16 * e.n_0 ^ 2 * e.radius ^ 3 * e.mu_H *
      quadModel (fun x => e.density x ^ 2 * 4 * Real.pi * x ^ 2) e.r_c 1 / e.mu_e
    exact div_nonneg (mul_nonneg (mul_nonneg (mul_nonneg (by positivity)
      (pow_nonneg hrad 3)) hmuH) (hq _ _ h2)) hmue
  have hr : 0 ≤ (emissionMeasureChev e).em_r := by
    show 0 ≤ 16 * e.n_0 ^ 2 * e.radius ^ 3 * e.mu_H ^ 2 *
      quadModel (fun x => e.density x ^ 2 * 4 * Real.pi * x ^ 2) e.r_min e.r_c /
      e.mu_H_ej / e.mu_e_ej
    exact div_nonneg (div_nonneg (mul_nonneg (mul_nonneg (mul_nonneg (by positivity)
      (pow_nonneg hrad 3)) (by positivity)) (hq _ _ h1)) hmuHej) hmueej
  exact ⟨add_nonneg hf hr, hf, hr, rfl⟩

theorem c8_emission_measure_witness :
    0 ≤ (emissionMeasureChev eW).em ∧ 0 ≤ (emissionMeasureChev eW).em_f ∧
      0 ≤ (emissionMeasureChev eW).em_r ∧
      (emissionMeasureChev eW).em =
        (emissionMeasureChev eW).em_f + (emissionMeasureChev eW).em_r :=
  c8_emission_measure eW (by norm_num [eW]) (by norm_num [eW]) (by norm_num [eW])
    (by norm_num [eW]) (by norm_num [eW]) (by norm_num [eW]) (by norm_num [eW])

theorem wl_notin_stFilter (c : Calc) (base : List Phase) (h : Phase.WL ∉ base) :
    Phase.WL ∉ stFilter c base := by
  unfold stFilter
  split
  · intro hmem
    exact h (List.mem_filter.mp hmem).1
  · exact h

theorem wl_notin_cfBase (c : Calc) : Phase.WL ∉ cfBase c := by
  unfold cfBase
  split
  · simp
  · split <;> simp

theorem wl_notin_getPhases_cf (d : Data) (c : Calc) (h : d.model = .cf) :
    Phase.WL ∉ getPhases d c := by
  unfold getPhases
  by_cases hs : d.s = 2
  · rw [if_pos hs]
    simp
  · rw [if_neg hs, if_neg (by rw [h]; simp), if_neg (by rw [h]; simp),
      if_neg (by rw [h]; simp)]
    exact wl_notin_stFilter c _ (wl_notin_cfBase c)

/-- Claim C1 (amended): the fallback fires on the opposite ordering to the
one the claim states.  When the cloudy-ISM variant is requested and the
ED-phase merger time is LESS than the WL transition time t_st, update_output
switches the model back to the standard cf variant, recomputes, and the
returned phase sequence contains no WL entry. -/
theorem c1_amended (d : Data) (c : Calc) (recompute : Data → Calc)
    (hm : d.model = .wl) (hlt : c.mrgED < (c.t_st : EReal)) :
    updateOutputPhases d c recompute =
      getPhases { d with model := .cf } (recompute { d with model := .cf }) ∧
    Phase.WL ∉ updateOutputPhases d c recompute := by
  have hcond : c.mrgED < (c.t_st : EReal) ∧ d.model = .wl := ⟨hlt, hm⟩
  have heq : updateOutputPhases d c recompute =
      getPhases { d with model := .cf } (recompute { d with model := .cf }) := by
    unfold updateOutputPhases
    exact if_pos hcond
  refine ⟨heq, ?_⟩
  rw [heq]
  exact wl_notin_getPhases_cf _ _ rfl

theorem c1_amended_witness :
    dWL.model = .wl ∧ cWLb.mrgED < (cWLb.t_st : EReal) ∧
      Phase.WL ∉ updateOutputPhases dWL cWLb (fun _ => cWLb) := by
  have h1 : dWL.model = .wl := rfl
  have h2 : cWLb.mrgED < (cWLb.t_st : EReal) := by
    show ((0 : ℝ) : EReal) < ((1 : ℝ) : EReal)
    exact EReal.coe_lt_coe_iff.mpr (by norm_num)
  exact ⟨h1, h2, (c1_amended dWL cWLb (fun _ => cWLb) h1 h2).2⟩

/-- Claim C1 counterexample: with the cloudy-ISM model requested and the WL
transition time t_st = 1 strictly LESS than the ED-phase merger time 2
(exactly the situation described by the claim), update_output does not fall
back to the standard model and the returned phase sequence does contain a
WL entry, contradicting the claim. -/
theorem c1_counterexample :
    (cWL.t_st : EReal) < cWL.mrgED ∧ dWL.model = .wl ∧
      Phase.WL ∈ updateOutputPhases dWL cWL (fun _ => cWL) := by
  refine ⟨?_, rfl, ?_⟩
  · show ((1 : ℝ) : EReal) < ((2 : ℝ) : EReal)
    exact EReal.coe_lt_coe_iff.mpr (by norm_num)
  · have hnot : ¬(cWL.mrgED < (cWL.t_st : EReal) ∧ dWL.model = .wl) := by
      rintro ⟨hlt, -⟩
      have h21 : (2 : ℝ) < 1 := EReal.coe_lt_coe_iff.mp hlt
      norm_num at h21
    rw [updateOutputPhases, if_neg hnot]
    have hlist : getPhases dWL cWL = [Phase.ED, Phase.WL, Phase.MCS] := by
      unfold getPhases
      rw [if_neg (by simp [dWL, dW4]), if_neg (by simp [dWL, dW4]),
        if_neg (by simp [dWL, dW4]), if_pos (by simp [dWL, dW4]),
        if_pos (by norm_num [cWL, cUnit])]
    rw [hlist]
    simp

theorem zipWith_map_same {α β γ δ : Type} (h : β → γ → δ) (f : α → β) (g : α → γ) :
    ∀ l : List α, List.zipWith h (l.map f) (l.map g) = l.map fun x => h (f x) (g x)
  | [] => rfl
  | a :: rest => by
    simp only [List.map_cons, List.zipWith_cons_cons]
    exact congrArg (h (f a) (g a) :: ·) (zipWith_map_same h f g rest)

theorem map_congr_mem {α β : Type} {f g : α → β} :
    ∀ {l : List α}, (∀ x ∈ l, f x = g x) → l.map f = l.map g
  | [], _ => rfl
  | a :: rest, h => by
    simp only [List.map_cons]
    rw [h a (by simp), map_congr_mem (fun x hx => h x (by simp [hx]))]

/-- For an ascending-sorted list, masked concatenation with a constant fill
below the threshold agrees with the pointwise conditional map. -/
theorem replicate_filter_append_sorted (cth v : ℝ) (g : ℝ → ℝ) :
    ∀ xs : List ℝ, List.Sorted (· ≤ ·) xs →
      List.replicate (xs.filter (fun x => decide (x < cth))).length v ++
        (xs.filter (fun x => decide (cth ≤ x))).map g =
      xs.map (fun x => if x < cth then v else g x)
  | [], _ => rfl
  | a :: rest, hs => by
    have hrest : List.Sorted (· ≤ ·) rest := (List.sorted_cons.mp hs).2
    have hle : ∀ x ∈ rest, a ≤ x := (List.sorted_cons.mp hs).1
    by_cases ha : a < cth
    · have hna : ¬ cth ≤ a := not_le.mpr ha
      simp only [List.filter_cons, ha, decide_True, hna, decide_False, if_true, if_false,
        List.length_cons, List.replicate_succ, List.cons_append, List.map_cons, if_pos ha]
      exact congrArg (v :: ·) (replicate_filter_append_sorted cth v g rest hrest)
    · have h1 : cth ≤ a := not_lt.mp ha
      have hallge : ∀ x ∈ rest, cth ≤ x := fun x hx => le_trans h1 (hle x hx)
      have hfilt : rest.filter (fun x => decide (x < cth)) = [] := by
        rw [List.filter_eq_nil_iff]
        intro x hx
        simp only [decide_eq_true_eq, not_lt]
        exact hallge x hx
      have hfilt2 : rest.filter (fun x => decide (cth ≤ x)) = rest := by
        rw [List.filter_eq_self]
        intro x hx
        simp only [decide_eq_true_eq]
        exact hallge x hx
      simp only [List.filter_cons, ha, decide_False, h1, decide_True, if_true, if_false,
        hfilt, hfilt2, List.length_nil, List.replicate_zero, List.nil_append,
        List.map_cons, if_neg ha]
      refine congrArg (g a :: ·) ?_
      refine (map_congr_mem ?_).symm
      intro x hx
      rw [if_neg (not_lt.mpr (hallge x hx))]

/-- Claim C10: on every ascending-sorted list of normalized radii the
vectorized Sedov temperature and density profiles agree elementwise with
their scalar counterparts: sedovVectorTemp xs = xs.map sedovScalarTemp and
sedovVectorDensity xs = xs.map sedovScalarDensity. -/
theorem c10_vector_scalar (xs : List ℝ) (hs : List.Sorted (· ≤ ·) xs) :
    sedovVectorTemp xs = xs.map sedovScalarTemp ∧
    sedovVectorDensity xs = xs.map sedovScalarDensity := by
  have ht : sedovVectorTemp xs = xs.map sedovScalarTemp := by
    unfold sedovVectorTemp
    rw [replicate_filter_append_sorted 0.4 ((0.4 : ℝ) ^ (-(4.32 : ℝ)))
      (fun x => x ^ (-(4.32 : ℝ))) xs hs]
    rfl
  refine ⟨ht, ?_⟩
  unfold sedovVectorDensity
  rw [replicate_filter_append_sorted 0.5 (0.31 : ℝ)
    (fun x => 0.31 + 2.774 * (x - 0.5) ^ 3 + 94.2548 * (x - 0.5) ^ (8.1748 : ℝ)) xs hs, ht,
    zipWith_map_same]
  refine map_congr_mem ?_
  intro x _
  by_cases hx : x < 0.5
  · simp only [if_pos hx, sedovScalarDensity, hx, if_true]
  · simp only [if_neg hx, sedovScalarDensity, hx, if_false]

theorem rpow_half_of_sq (a : ℝ) (ha : 0 ≤ a) : ((a ^ 2 : ℝ)) ^ (0.5 : ℝ) = a := by
  rw [show (0.5 : ℝ) = 1 / 2 by norm_num, ← Real.sqrt_eq_rpow, Real.sqrt_sq ha]

/-- Claim C7 counterexample: the ST-phase merger time computed by
merger_time (n=0 closed form, as assembled from the update_output scales)
strictly DECREASES when the explosion energy increases from
e_51 = 4e-51 to e_51 = 1.6e-50 with every other input held fixed, because
the additive 0.254 t_ch term scales as e_51^(-1/2).  This refutes
monotonic non-decrease in e_51 for every phase. -/
theorem c7_counterexample :
    d7a.e_51 < d7b.e_51 ∧
      mergerSTn0Calc (scaleCalc d7b) < mergerSTn0Calc (scaleCalc d7a) := by
  have hm1 : d7a.m_ej * SOLAR_MASS = 1 := by
    show 1 / SOLAR_MASS * SOLAR_MASS = 1
    rw [div_mul_cancel₀]
    norm_num [SOLAR_MASS]
  have hn1 : d7a.n_0 * d7a.mu_H * M_H = 1 := by
    show 1 / M_H * 1 * M_H = 1
    rw [mul_one, div_mul_cancel₀]
    norm_num [M_H]
  have he4 : d7a.e_51 * 10 ^ 51 = 4 := by
    show (4e-51 : ℝ) * 10 ^ 51 = 4
    norm_num
  have he16 : d7b.e_51 * 10 ^ 51 = 16 := by
    show (1.6e-50 : ℝ) * 10 ^ 51 = 16
    norm_num
  have h4h : ((4 : ℝ)) ^ (0.5 : ℝ) = 2 := by
    rw [show (4 : ℝ) = 2 ^ 2 by norm_num]
    exact rpow_half_of_sq 2 (by norm_num)
  have h16h : ((16 : ℝ)) ^ (0.5 : ℝ) = 4 := by
    rw [show (16 : ℝ) = 4 ^ 2 by norm_num]
    exact rpow_half_of_sq 4 (by norm_num)
  have htch_a : tCh d7a = 1 / (2 * YR_TO_SEC) := by
    unfold tCh
    rw [hm1, hn1, he4, h4h, Real.one_rpow, Real.one_rpow]
    ring
  have htch_b : tCh d7b = 1 / (4 * YR_TO_SEC) := by
    unfold tCh
    rw [show d7b.m_ej * SOLAR_MASS = 1 from hm1, show d7b.n_0 * d7b.mu_H * M_H = 1 from hn1,
      he16, h16h, Real.one_rpow, Real.one_rpow]
    ring
  have hrch_a : rCh d7a = 1 / (PC_TO_KM * 10 ^ 5) := by
    unfold rCh
    rw [hm1, hn1, Real.one_rpow]
    ring
  have hvch_a : vCh d7a = 2e-5 := by
    unfold vCh CONVERSION_FACTOR
    rw [hrch_a, htch_a]
    rw [show PC_TO_KM = (3.0857e13 : ℝ) from rfl, show YR_TO_SEC = (365.25 * 24 * 3600 : ℝ) from rfl]
    norm_num
  have hvch_b : vCh d7b = 4e-5 := by
    unfold vCh CONVERSION_FACTOR
    rw [show rCh d7b = 1 / (PC_TO_KM * 10 ^ 5) from hrch_a, htch_b]
    rw [show PC_TO_KM = (3.0857e13 : ℝ) from rfl, show YR_TO_SEC = (365.25 * 24 * 3600 : ℝ) from rfl]
    norm_num
  have hc021 : (1 : ℝ) ≤ cZero d7a ^ 2 + d7a.sigma_v ^ 2 := by
    have h := sq_nonneg (cZero d7a)
    have hs : d7a.sigma_v = 1 := rfl
    rw [hs]
    nlinarith
  have hcnet1 : (1 : ℝ) ≤ cNet d7a := by
    unfold cNet
    calc (1 : ℝ) = (1 : ℝ) ^ (0.5 : ℝ) := (Real.one_rpow _).symm
    _ ≤ (cZero d7a ^ 2 + d7a.sigma_v ^ 2) ^ (0.5 : ℝ) :=
      Real.rpow_le_rpow (by norm_num) hc021 (by norm_num)
  have hcnet0 : (0 : ℝ) < cNet d7a := lt_of_lt_of_le one_pos hcnet1
  have hcnet_b : cNet d7b = cNet d7a := rfl
  set xa := 0.569 * vCh d7a / BETA / cNet d7a with hxa
  set xb := 0.569 * vCh d7b / BETA / cNet d7b with hxb
  have hxa_pos : 0 < xa := by
    rw [hxa, hvch_a]
    exact div_pos (by norm_num [BETA]) hcnet0
  have hxb_pos : 0 < xb := by
    rw [hxb, hvch_b, hcnet_b]
    exact div_pos (by norm_num [BETA]) hcnet0
  have hxb_le : xb ≤ 0.001 := by
    rw [hxb, hvch_b, hcnet_b]
    calc 0.569 * (4e-5 : ℝ) / BETA / cNet d7a ≤ 0.569 * (4e-5 : ℝ) / BETA :=
      div_le_self (by norm_num [BETA]) hcnet1
    _ ≤ 0.001 := by norm_num [BETA]
  have hpow_b : xb ^ ((5 : ℝ) / 3) ≤ 0.001 := by
    calc xb ^ ((5 : ℝ) / 3) ≤ xb ^ (1 : ℝ) :=
      Real.rpow_le_rpow_of_exponent_ge hxb_pos (le_trans hxb_le (by norm_num)) (by norm_num)
    _ = xb := Real.rpow_one xb
    _ ≤ 0.001 := hxb_le
  have hpow_a : 0 ≤ xa ^ ((5 : ℝ) / 3) := Real.rpow_nonneg hxa_pos.le _
  have hma : mergerSTn0Calc (scaleCalc d7a) = tCh d7a / 1.42 * (xa ^ ((5 : ℝ) / 3) + 0.254) := rfl
  have hmb : mergerSTn0Calc (scaleCalc d7b) = tCh d7b / 1.42 * (xb ^ ((5 : ℝ) / 3) + 0.254) := rfl
  have hYR : (0 : ℝ) < YR_TO_SEC := by norm_num [YR_TO_SEC]
  have hta_nonneg : 0 ≤ tCh d7a / 1.42 := by
    rw [htch_a]
    positivity
  have htb_nonneg : 0 ≤ tCh d7b / 1.42 := by
    rw [htch_b]
    positivity
  have hma_ge : tCh d7a / 1.42 * 0.254 ≤ mergerSTn0Calc (scaleCalc d7a) := by
    rw [hma]
    exact mul_le_mul_of_nonneg_left (by linarith) hta_nonneg
  have hmb_le : mergerSTn0Calc (scaleCalc d7b) ≤ tCh d7b / 1.42 * 0.255 := by
    rw [hmb]
    exact mul_le_mul_of_nonneg_left (by linarith) htb_nonneg
  have hcomp : tCh d7b / 1.42 * 0.255 < tCh d7a / 1.42 * 0.254 := by
    rw [htch_a, htch_b, show YR_TO_SEC = (365.25 * 24 * 3600 : ℝ) from rfl]
    norm_num
  refine ⟨?_, by linarith⟩
  show (4e-51 : ℝ) < 1.6e-50
  norm_num

theorem cNet_pos (d : Data) (hsig : 0 < d.sigma_v) : 0 < cNet d := by
  unfold cNet
  exact Real.rpow_pos_of_pos
    (add_pos_of_nonneg_of_pos (sq_nonneg (cZero d)) (pow_pos hsig 2)) _

theorem rCh_pos (d : Data) (hm : 0 < d.m_ej) (hn0 : 0 < d.n_0) (hmu : 0 < d.mu_H) :
    0 < rCh d := by
  unfold rCh
  have h1 : (0 : ℝ) < (d.m_ej * SOLAR_MASS) ^ ((1 : ℝ) / 3) :=
    Real.rpow_pos_of_pos (mul_pos hm (by norm_num [SOLAR_MASS])) _
  have h2 : (0 : ℝ) < (d.n_0 * d.mu_H * M_H) ^ ((1 : ℝ) / 3) :=
    Real.rpow_pos_of_pos (mul_pos (mul_pos hn0 hmu) (by norm_num [M_H])) _
  have h3 : (0 : ℝ) < PC_TO_KM := by norm_num [PC_TO_KM]
  exact div_pos (div_pos (div_pos h1 h2) h3) (by norm_num)

theorem tCh_pos (d : Data) (hm : 0 < d.m_ej) (hn0 : 0 < d.n_0) (hmu : 0 < d.mu_H)
    (he : 0 < d.e_51) : 0 < tCh d := by
  unfold tCh
  have h1 : (0 : ℝ) < (d.m_ej * SOLAR_MASS) ^ ((5 : ℝ) / 6) :=
    Real.rpow_pos_of_pos (mul_pos hm (by norm_num [SOLAR_MASS])) _
  have h2 : (0 : ℝ) < (d.e_51 * 10 ^ 51) ^ (0.5 : ℝ) :=
    Real.rpow_pos_of_pos (mul_pos he (by norm_num)) _
  have h3 : (0 : ℝ) < (d.n_0 * d.mu_H * M_H) ^ ((1 : ℝ) / 3) :=
    Real.rpow_pos_of_pos (mul_pos (mul_pos hn0 hmu) (by norm_num [M_H])) _
  exact div_pos (div_pos (div_pos h1 h2) h3) (by norm_num [YR_TO_SEC])

theorem conversion_factor_pos : (0 : ℝ) < CONVERSION_FACTOR := by
  norm_num [CONVERSION_FACTOR, PC_TO_KM, YR_TO_SEC]

theorem vCh_pos (d : Data) (hm : 0 < d.m_ej) (hn0 : 0 < d.n_0) (hmu : 0 < d.mu_H)
    (he : 0 < d.e_51) : 0 < vCh d := by
  unfold vCh
  exact mul_pos (div_pos (rCh_pos d hm hn0 hmu) (tCh_pos d hm hn0 hmu he))
    conversion_factor_pos

theorem innerC_pos (cn : ValueSet) (hl : 0 < cn.l_ed) (hp : 0 < cn.phi_ed)
    (n : ℕ) (h6 : 6 ≤ n) :
    0 < (27 * cn.l_ed ^ ((n : ℝ) - 2) / 4 / Real.pi / (n : ℝ) / ((n : ℝ) - 3) / cn.phi_ed *
      (10 * ((n : ℝ) - 5) / 3 / ((n : ℝ) - 3)) ^ (((n : ℝ) - 3) / 2)) ^ (1 / (n : ℝ)) := by
  have h6R : (6 : ℝ) ≤ (n : ℝ) := by exact_mod_cast h6
  have hn0 : (0 : ℝ) < (n : ℝ) := by linarith
  have hn3 : (0 : ℝ) < (n : ℝ) - 3 := by linarith
  have hA : (0 : ℝ) < 27 * cn.l_ed ^ ((n : ℝ) - 2) := by
    have := Real.rpow_pos_of_pos hl ((n : ℝ) - 2)
    linarith
  have hB : (0 : ℝ) < 10 * ((n : ℝ) - 5) / 3 / ((n : ℝ) - 3) :=
    div_pos (div_pos (by linarith) (by norm_num)) hn3
  refine Real.rpow_pos_of_pos ?_ _
  have h1 : (0 : ℝ) < 27 * cn.l_ed ^ ((n : ℝ) - 2) / 4 / Real.pi / (n : ℝ) / ((n : ℝ) - 3) /
      cn.phi_ed :=
    div_pos (div_pos (div_pos (div_pos (div_pos hA (by norm_num)) Real.pi_pos) hn0) hn3) hp
  exact mul_pos h1 (Real.rpow_pos_of_pos hB _)

/-- Core monotonicity of the ED closed-form merger expression in the
characteristic time, with all other factors frozen. -/
theorem merger_form_mono (K R CF C t1 t2 nR : ℝ) (hn : 6 ≤ nR)
    (hK : 0 < K) (hR : 0 < R) (hCF : 0 < CF) (hC : 0 < C)
    (ht2 : 0 < t2) (h12 : t2 ≤ t1) :
    (K / (R / t1 * CF) * nR / (nR - 3) / C) ^ (-nR / 3) * t1 ≤
      (K / (R / t2 * CF) * nR / (nR - 3) / C) ^ (-nR / 3) * t2 := by
  have ht1 : 0 < t1 := lt_of_lt_of_le ht2 h12
  have hn3 : (0 : ℝ) < nR - 3 := by linarith
  set A := K * nR / ((nR - 3) * C * R * CF) with hA
  have hApos : 0 < A := by
    rw [hA]
    exact div_pos (mul_pos hK (by linarith))
      (mul_pos (mul_pos (mul_pos hn3 hC) hR) hCF)
  have hform : ∀ t : ℝ, 0 < t → K / (R / t * CF) * nR / (nR - 3) / C = A * t := by
    intro t ht
    rw [hA]
    have h1 := hR.ne'
    have h2 := hCF.ne'
    have h3 := hC.ne'
    have h4 := hn3.ne'
    have h5 := ht.ne'
    field_simp
    ring
  have hexp : ∀ t : ℝ, 0 < t → (A * t) ^ (-nR / 3) * t = A ^ (-nR / 3) * t ^ (-nR / 3 + 1) := by
    intro t ht
    rw [Real.mul_rpow hApos.le ht.le, Real.rpow_add ht, Real.rpow_one, mul_assoc]
  rw [hform t1 ht1, hform t2 ht2, hexp t1 ht1, hexp t2 ht2]
  refine mul_le_mul_of_nonneg_left ?_ (Real.rpow_nonneg hApos.le _)
  exact Real.rpow_le_rpow_of_nonpos ht2 h12 (by linarith)

theorem mergerED_e_mono (cn : ValueSet) (hl : 0 < cn.l_ed) (hp : 0 < cn.phi_ed)
    (n : ℕ) (h6 : 6 ≤ n) (d1 d2 : Data)
    (hmeq : d2.m_ej = d1.m_ej) (hn0eq : d2.n_0 = d1.n_0) (hmueq : d2.mu_H = d1.mu_H)
    (hteq : d2.temp_ism = d1.temp_ism) (hseq : d2.sigma_v = d1.sigma_v)
    (hm : 0 < d1.m_ej) (hn0 : 0 < d1.n_0) (hmu : 0 < d1.mu_H) (hsig : 0 < d1.sigma_v)
    (he1 : 0 < d1.e_51) (hee : d1.e_51 ≤ d2.e_51) :
    mergerEDClosedCalc cn (n : ℝ) (scaleCalc d1) ≤
      mergerEDClosedCalc cn (n : ℝ) (scaleCalc d2) := by
  have he2 : 0 < d2.e_51 := lt_of_lt_of_le he1 hee
  have hcnet : cNet d2 = cNet d1 := by
    unfold cNet cZero
    rw [hteq, hseq, hmueq]
  have hrch : rCh d2 = rCh d1 := by
    unfold rCh
    rw [hmeq, hn0eq, hmueq]
  have ht1pos : 0 < tCh d1 := tCh_pos d1 hm hn0 hmu he1
  have ht2pos : 0 < tCh d2 :=
    tCh_pos d2 (hmeq ▸ hm) (hn0eq ▸ hn0) (hmueq ▸ hmu) he2
  have htle : tCh d2 ≤ tCh d1 := by
    unfold tCh
    rw [hmeq, hn0eq, hmueq]
    have hX : (d1.e_51 * 10 ^ 51) ^ (0.5 : ℝ) ≤ (d2.e_51 * 10 ^ 51) ^ (0.5 : ℝ) :=
      Real.rpow_le_rpow (by positivity) (by nlinarith) (by norm_num)
    have hX1 : (0 : ℝ) < (d1.e_51 * 10 ^ 51) ^ (0.5 : ℝ) :=
      Real.rpow_pos_of_pos (by positivity) _
    have hAnn : (0 : ℝ) ≤ (d1.m_ej * SOLAR_MASS) ^ ((5 : ℝ) / 6) :=
      Real.rpow_nonneg (mul_pos hm (by norm_num [SOLAR_MASS])).le _
    have hD : (0 : ℝ) < (d1.n_0 * d1.mu_H * M_H) ^ ((1 : ℝ) / 3) :=
      Real.rpow_pos_of_pos (mul_pos (mul_pos hn0 hmu) (by norm_num [M_H])) _
    have step1 := div_le_div_of_nonneg_left hAnn hX1 hX
    have step2 := (div_le_div_iff_of_pos_right hD).mpr step1
    exact (div_le_div_iff_of_pos_right (by norm_num [YR_TO_SEC] : (0:ℝ) < YR_TO_SEC)).mpr step2
  have hv1 : vCh d1 = rCh d1 / tCh d1 * CONVERSION_FACTOR := rfl
  have hv2 : vCh d2 = rCh d1 / tCh d2 * CONVERSION_FACTOR := by
    unfold vCh
    rw [hrch]
  simp only [mergerEDClosedCalc, scaleCalc]
  rw [hcnet, hv2, hv1]
  exact merger_form_mono (cNet d1 * BETA) (rCh d1) CONVERSION_FACTOR _ (tCh d1) (tCh d2)
    (n : ℝ) (by exact_mod_cast h6) (mul_pos (cNet_pos d1 hsig) (by norm_num [BETA]))
    (rCh_pos d1 hm hn0 hmu) conversion_factor_pos (innerC_pos cn hl hp n h6) ht2pos htle

theorem mergerED_n0_anti (cn : ValueSet) (hl : 0 < cn.l_ed) (hp : 0 < cn.phi_ed)
    (n : ℕ) (h6 : 6 ≤ n) (d1 d2 : Data)
    (hmeq : d2.m_ej = d1.m_ej) (heeq : d2.e_51 = d1.e_51) (hmueq : d2.mu_H = d1.mu_H)
    (hteq : d2.temp_ism = d1.temp_ism) (hseq : d2.sigma_v = d1.sigma_v)
    (hm : 0 < d1.m_ej) (hn01 : 0 < d1.n_0) (hmu : 0 < d1.mu_H) (hsig : 0 < d1.sigma_v)
    (he : 0 < d1.e_51) (hnn : d1.n_0 ≤ d2.n_0) :
    mergerEDClosedCalc cn (n : ℝ) (scaleCalc d2) ≤
      mergerEDClosedCalc cn (n : ℝ) (scaleCalc d1) := by
  have hn02 : 0 < d2.n_0 := lt_of_lt_of_le hn01 hnn
  have hcnet : cNet d2 = cNet d1 := by
    unfold cNet cZero
    rw [hteq, hseq, hmueq]
  have hMH : (0 : ℝ) < M_H := by norm_num [M_H]
  have hB1 : (0 : ℝ) < (d1.n_0 * d1.mu_H * M_H) ^ ((1 : ℝ) / 3) :=
    Real.rpow_pos_of_pos (mul_pos (mul_pos hn01 hmu) hMH) _
  have hB2 : (0 : ℝ) < (d2.n_0 * d1.mu_H * M_H) ^ ((1 : ℝ) / 3) :=
    Real.rpow_pos_of_pos (mul_pos (mul_pos hn02 hmu) hMH) _
  have hP : (0 : ℝ) < (d1.m_ej * SOLAR_MASS) ^ ((1 : ℝ) / 3) :=
    Real.rpow_pos_of_pos (mul_pos hm (by norm_num [SOLAR_MASS])) _
  have hQ : (0 : ℝ) < (d1.m_ej * SOLAR_MASS) ^ ((5 : ℝ) / 6) :=
    Real.rpow_pos_of_pos (mul_pos hm (by norm_num [SOLAR_MASS])) _
  have hE : (0 : ℝ) < (d1.e_51 * 10 ^ 51) ^ (0.5 : ℝ) :=
    Real.rpow_pos_of_pos (mul_pos he (by norm_num)) _
  have hvch : vCh d2 = vCh d1 := by
    unfold vCh rCh tCh
    rw [hmeq, heeq, hmueq]
    have h1 := hB1.ne'
    have h2 := hB2.ne'
    have h3 := hQ.ne'
    have h4 := hE.ne'
    have h5 : (0 : ℝ) < PC_TO_KM := by norm_num [PC_TO_KM]
    have h6yr : (0 : ℝ) < YR_TO_SEC := by norm_num [YR_TO_SEC]
    have h7 := h5.ne'
    have h8 := h6yr.ne'
    field_simp
    ring
  have htle : tCh d2 ≤ tCh d1 := by
    unfold tCh
    rw [hmeq, heeq, hmueq]
    have hD : (d1.n_0 * d1.mu_H * M_H) ^ ((1 : ℝ) / 3) ≤
        (d2.n_0 * d1.mu_H * M_H) ^ ((1 : ℝ) / 3) :=
      Real.rpow_le_rpow (by positivity)
        (mul_le_mul_of_nonneg_right (mul_le_mul_of_nonneg_right hnn hmu.le) hMH.le)
        (by norm_num)
    have hAX : (0 : ℝ) ≤ (d1.m_ej * SOLAR_MASS) ^ ((5 : ℝ) / 6) /
        (d1.e_51 * 10 ^ 51) ^ (0.5 : ℝ) := (div_pos hQ hE).le
    have step := div_le_div_of_nonneg_left hAX hB1 hD
    exact (div_le_div_iff_of_pos_right (by norm_num [YR_TO_SEC] : (0:ℝ) < YR_TO_SEC)).mpr step
  have hbase : (0 : ℝ) ≤ cNet d1 * BETA / vCh d1 * (n : ℝ) / ((n : ℝ) - 3) /
      (27 * cn.l_ed ^ ((n : ℝ) - 2) / 4 / Real.pi / (n : ℝ) / ((n : ℝ) - 3) / cn.phi_ed *
        (10 * ((n : ℝ) - 5) / 3 / ((n : ℝ) - 3)) ^ (((n : ℝ) - 3) / 2)) ^ (1 / (n : ℝ)) := by
    have h6R : (6 : ℝ) ≤ (n : ℝ) := by exact_mod_cast h6
    have hvp : 0 < vCh d1 := vCh_pos d1 hm hn01 hmu he
    have hcp : 0 < cNet d1 := cNet_pos d1 hsig
    refine div_nonneg (div_nonneg (mul_nonneg (div_nonneg ?_ hvp.le) ?_) ?_) ?_
    · exact mul_nonneg hcp.le (by norm_num [BETA])
    · positivity
    · linarith
    · exact (innerC_pos cn hl hp n h6).le
  simp only [mergerEDClosedCalc, scaleCalc]
  rw [hcnet, hvch]
  exact mul_le_mul_of_nonneg_left htle (Real.rpow_nonneg hbase _)

/-- Claim C7 (amended): the claimed monotonicity holds for the ED-phase
closed-form merger time (density indices n not in {0,2,4}): it is
non-decreasing in the explosion energy e_51 and non-increasing in the
ambient density n_0, all other inputs held fixed.  It does NOT hold for
every phase: the ST merger time violates e_51-monotonicity, as the
counterexample above shows. -/
theorem c7_amended (n : ℕ) (hn : n ∈ ({6, 7, 8, 9, 10, 12, 14} : Finset ℕ)) (base : Data)
    (hm : 0 < base.m_ej) (hmu : 0 < base.mu_H) (hsig : 0 < base.sigma_v)
    (hn0 : 0 < base.n_0) (he51 : 0 < base.e_51)
    (e e2 nu nu2 : ℝ) (he : 0 < e) (hee : e ≤ e2) (hnu : 0 < nu) (hnunu : nu ≤ nu2) :
    mergerEDClosedCalc (valueDict n) (n : ℝ) (scaleCalc { base with n := n, e_51 := e }) ≤
      mergerEDClosedCalc (valueDict n) (n : ℝ) (scaleCalc { base with n := n, e_51 := e2 }) ∧
    mergerEDClosedCalc (valueDict n) (n : ℝ) (scaleCalc { base with n := n, n_0 := nu2 }) ≤
      mergerEDClosedCalc (valueDict n) (n : ℝ) (scaleCalc { base with n := n, n_0 := nu }) := by
  have hvals : 0 < (valueDict n).l_ed ∧ 0 < (valueDict n).phi_ed ∧ 6 ≤ n := by
    fin_cases hn <;> exact ⟨by norm_num [valueDict], by norm_num [valueDict], by norm_num⟩
  constructor
  · exact mergerED_e_mono (valueDict n) hvals.1 hvals.2.1 n hvals.2.2
      { base with n := n, e_51 := e } { base with n := n, e_51 := e2 }
      rfl rfl rfl rfl rfl hm hn0 hmu hsig he hee
  · exact mergerED_n0_anti (valueDict n) hvals.1 hvals.2.1 n hvals.2.2
      { base with n := n, n_0 := nu } { base with n := n, n_0 := nu2 }
      rfl rfl rfl rfl rfl hm hnu hmu hsig he51 hnunu

theorem c7_amended_witness :
    mergerEDClosedCalc (valueDict 7) ((7 : ℕ) : ℝ)
        (scaleCalc { d7a with n := 7, e_51 := 1 }) ≤
      mergerEDClosedCalc (valueDict 7) ((7 : ℕ) : ℝ)
        (scaleCalc { d7a with n := 7, e_51 := 2 }) ∧
    mergerEDClosedCalc (valueDict 7) ((7 : ℕ) : ℝ)
        (scaleCalc { d7a with n := 7, n_0 := 2 }) ≤
      mergerEDClosedCalc (valueDict 7) ((7 : ℕ) : ℝ)
        (scaleCalc { d7a with n := 7, n_0 := 1 }) :=
  c7_amended 7 (by decide) d7a
    (by norm_num [d7a, SOLAR_MASS]) (by norm_num [d7a]) (by norm_num [d7a])
    (by norm_num [d7a, M_H]) (by norm_num [d7a])
    1 2 1 2 (by norm_num) (by norm_num) (by norm_num) (by norm_num)

theorem c10_vector_scalar_witness :
    List.Sorted (· ≤ ·) [(0.3 : ℝ), 0.45, 0.7] ∧
      sedovVectorTemp [(0.3 : ℝ), 0.45, 0.7] =
        List.map sedovScalarTemp [(0.3 : ℝ), 0.45, 0.7] ∧
      sedovVectorDensity [(0.3 : ℝ), 0.45, 0.7] =
        List.map sedovScalarDensity [(0.3 : ℝ), 0.45, 0.7] := by
  have hs : List.Sorted (· ≤ ·) [(0.3 : ℝ), 0.45, 0.7] := by
    simp only [List.sorted_cons, List.mem_cons, List.mem_singleton, List.not_mem_nil,
      List.sorted_nil]
    norm_num
  exact ⟨hs, (c10_vector_scalar _ hs).1, (c10_vector_scalar _ hs).2⟩

end SNR

end
